import Mathlib

/-!
Shallow embedding of the package-listing core of the `pixi` workspace tool:
the package normalizer (`crates/pixi_api/src/workspace/list/package.rs`) and
the listing command (`crates/pixi_cli/src/list.rs`), together with proofs of
the stated properties of the normalizer, the size resolver, the sorting and
the output stage.

Machine integers (`u64` byte counts) are modelled as `Nat`: the Rust code only
adds sizes and never relies on wrap-around. Filesystem paths are modelled by
the tree of their contents (`FsEntry`), so that the recursive size computation
is a pure function of the input. Fallible Rust code (`std::io::Result`,
`.expect(..)` panics) is modelled with `Except String`.
-/

/-- A filesystem node, as observed by `get_dir_size`.
`file n` is a regular file whose metadata length is `n`;
`badFile` is a non-directory entry whose metadata cannot be statted
(permission error, race-deleted file);
`dir es` is a directory whose listing succeeds and yields `es`;
`badDir` is a directory whose listing (`read_dir`) fails. -/
inductive FsEntry where
  | file (size : Nat)
  | badFile
  | dir (entries : List FsEntry)
  | badDir

mutual

/-- Embedding of `get_dir_size` (package.rs lines 106-125): if the path is a
directory, iterate over its entries, adding the metadata length of each file
and recursing into everything else; otherwise return the path metadata length.
A stat failure or a `read_dir` failure aborts with the I/O error. -/
def get_dir_size : FsEntry → Except String Nat
  | .file n => .ok n
  | .badFile => .error "failed to stat"
  | .badDir => .error "failed to read directory"
  | .dir entries => get_dir_size_entries entries

/-- The `for entry in fs_err::read_dir(..)` loop of `get_dir_size`:
accumulates `result`, propagating the first error with `?`. -/
def get_dir_size_entries : List FsEntry → Except String Nat
  | [] => .ok 0
  | e :: rest => do
    let n ← match e with
      | .file k => Except.ok k
      | other => get_dir_size other
    let m ← get_dir_size_entries rest
    Except.ok (n + m)

end

mutual

/-- Spec-side size of a tree: a file contributes its metadata length, a
directory the sum over its entries. Only meaningful on error-free trees. -/
def specSize : FsEntry → Nat
  | .file n => n
  | .badFile => 0
  | .badDir => 0
  | .dir entries => specSizeEntries entries

/-- Sum of `specSize` over a list of entries. -/
def specSizeEntries : List FsEntry → Nat
  | [] => 0
  | e :: rest => specSize e + specSizeEntries rest

end

mutual

/-- Whether the tree contains an entry that cannot be statted or a directory
that cannot be listed. -/
def hasIOFailure : FsEntry → Bool
  | .file _ => false
  | .badFile => true
  | .badDir => true
  | .dir entries => hasIOFailureEntries entries

/-- Whether some entry of the list contains an I/O failure. -/
def hasIOFailureEntries : List FsEntry → Bool
  | [] => false
  | e :: rest => hasIOFailure e || hasIOFailureEntries rest

end

/-- The fields of a `rattler_conda_types::PackageRecord` that the normalizer
reads: the normalized name, the version string, the build string and the
optional recorded byte size. -/
structure PackageRecord where
  name : String
  version : String
  build : String
  size : Option Nat

/-- Embedding of `rattler_lock::CondaPackageData`: a binary record carries an
optional channel reference, a source record carries a source location.
Both variants expose a `PackageRecord` through `record()`. Location, channel
and url values are modelled by their rendered strings. -/
inductive CondaPackageData where
  | binary (record : PackageRecord) (channel : Option String)
  | source (record : PackageRecord) (location : String)

/-- The `record()` accessor of `CondaPackageData`. -/
def CondaPackageData.record : CondaPackageData → PackageRecord
  | .binary r _ => r
  | .source r _ => r

/-- Embedding of `rattler_lock::UrlOrPath`. A path carries both its rendered
string and the tree of its on-disk contents, which is the shallow embedding of
the ambient filesystem at that path. -/
inductive UrlOrPath where
  | url (s : String)
  | path (s : String) (contents : FsEntry)

/-- The fields of `rattler_lock::PypiPackageData` read by the normalizer:
`name` in its dist-info form, the rendered version, the optional content
hash (only its presence matters downstream, the digest is kept for
fidelity), the editable flag and the location. -/
structure PypiPackageData where
  name : String
  version : String
  hash : Option String
  editable : Bool
  location : UrlOrPath

/-- One entry of the registry wheel index, with the fields the normalizer
reads: `dist.filename.version` in the native uv representation,
`dist.path` (contents of the on-disk artifact) and the rendered
`dist.filename`. -/
structure IndexEntry where
  version : String
  path : FsEntry
  filename : String

/-- Embedding of `uv_distribution::RegistryWheelIndex` as the association of
package names to cached entries. The mutable cursor that the real index keeps
across `get` calls only amortizes cache scanning and does not affect which
entries `get` yields, so the index is modelled as a pure lookup. -/
structure RegistryWheelIndex where
  entries : List (String × IndexEntry)

/-- The `get(name)` iterator of the registry index: every cached entry whose
package name matches. -/
def RegistryWheelIndex.get (idx : RegistryWheelIndex) (name : String) :
    List IndexEntry :=
  (idx.entries.filter (fun e => e.1 = name)).map Prod.snd

/-- Embedding of `PackageKind` (package.rs lines 21-26), with the derived
order `Conda < Pypi` used by `--sort-by kind`. -/
inductive PackageKind where
  | conda
  | pypi
deriving Repr, DecidableEq

/-- The discriminant order on `PackageKind` (`Conda` before `Pypi`), as in the
derived `Ord` instance in Rust. -/
def PackageKind.toNat : PackageKind → Nat
  | .conda => 0
  | .pypi => 1

/-- Embedding of the normalized `Package` struct (package.rs lines 8-19). -/
structure Package where
  name : String
  version : String
  build : Option String
  size_bytes : Option Nat
  kind : PackageKind
  source : Option String
  is_explicit : Bool
  is_editable : Bool

/-- Embedding of `PackageExt` (package.rs lines 131-136): a pypi record is
paired with its `uv_normalize::PackageName` (modelled by its string), used as
the key into the registry index. -/
inductive PackageExt where
  | pypi (data : PypiPackageData) (uvName : String)
  | conda (data : CondaPackageData)

/-- The `name()` accessor (package.rs lines 156-161): the normalized conda
name, or the dist-info form of the pypi name. -/
def PackageExt.name : PackageExt → String
  | .conda c => c.record.name
  | .pypi p _ => p.name

/-- The `version()` accessor (package.rs lines 164-169). -/
def PackageExt.version : PackageExt → String
  | .conda c => c.record.version
  | .pypi p _ => p.version

/-- The `From<&PackageExt> for PackageKind` conversion (package.rs
lines 138-145). -/
def PackageKind.fromExt : PackageExt → PackageKind
  | .conda _ => .conda
  | .pypi _ _ => .pypi

/-- Embedding of `get_pypi_location_information` (package.rs lines 95-103):
a url yields no size and the url string; a path yields the directory size
when the traversal succeeds (`.ok()` discards an I/O error) and the path
string. -/
def get_pypi_location_information (location : UrlOrPath) :
    Option Nat × Option String :=
  match location with
  | .url u => (none, some u)
  | .path s contents => ((get_dir_size contents).toOption, some s)

/-- The `find` over `registry_index.get(name)` (package.rs lines 59-62) with
the predicate `i.dist.filename.version == to_uv_version(&p.version)
.expect("invalid version")`. The conversion runs each time the predicate is
evaluated, so a conversion failure aborts (models the `expect` panic) exactly
when at least one entry is tested; on an empty iterator `find` returns
`None` without ever converting. `toUvVersion` stands for
`pixi_uv_conversions::to_uv_version`, external to the sources under study:
a partial conversion into the native uv version representation. -/
def findMatchingEntry (toUvVersion : String → Option String)
    (entries : List IndexEntry) (version : String) :
    Except String (Option IndexEntry) :=
  match entries with
  | [] => .ok none
  | e :: rest =>
    match toUvVersion version with
    | none => .error "invalid version"
    | some uv =>
      if e.version = uv then .ok (some e)
      else findMatchingEntry toUvVersion rest version

/-- Embedding of `Package::new` (package.rs lines 29-91), parametrized by the
external version conversion `toUvVersion`. The only failure is the
`expect("invalid version")` panic inside the registry-index `find`; every
other fallible step (`get_dir_size`) is discarded with `.ok()`. -/
def Package.new (toUvVersion : String → Option String) (package : PackageExt)
    (project_dependency_names : List String)
    (registry_index : Option RegistryWheelIndex) : Except String Package := do
  let name := package.name
  let version := package.version
  let kind := PackageKind.fromExt package
  let build := match package with
    | .conda pkg => some pkg.record.build
    | .pypi _ _ => none
  let (size_bytes, source) ← match package with
    | .conda pkg =>
      Except.ok (pkg.record.size,
        match pkg with
        | .source _ loc => some loc
        | .binary _ channel => channel)
    | .pypi p uvName =>
      if p.hash.isSome then
        match registry_index with
        | some registry_index => do
          let entry ← findMatchingEntry toUvVersion
            (registry_index.get uvName) p.version
          let size := entry.bind fun e => (get_dir_size e.path).toOption
          let entryName := entry.map fun e => e.filename
          Except.ok (size, entryName)
        | none => Except.ok (get_pypi_location_information p.location)
      else Except.ok (get_pypi_location_information p.location)
  let is_explicit := project_dependency_names.contains name
  let is_editable := match package with
    | .conda _ => false
    | .pypi p _ => p.editable
  Except.ok { name, version, build, size_bytes, kind, source,
              is_explicit, is_editable }

/-- Embedding of the `SortBy` strategy enum (list.rs lines 26-31). -/
inductive SortBy where
  | size
  | name
  | kind
deriving Repr, DecidableEq

/-- The sort key used by `--sort-by size`:
`a.size_bytes.unwrap_or(0)` (list.rs line 103). -/
def sizeKey (p : Package) : Nat := p.size_bytes.getD 0

/-- Embedding of the sorting step of `execute` (list.rs lines 100-111).
`Vec::sort_by` is a stable sort by a total comparator; it is modelled by
`List.mergeSort` with the corresponding boolean order. -/
def sortPackages (sortBy : SortBy) (packages : List Package) : List Package :=
  match sortBy with
  | .size => packages.mergeSort (fun a b => sizeKey a ≤ sizeKey b)
  | .name => packages.mergeSort (fun a b => a.name ≤ b.name)
  | .kind =>
    packages.mergeSort (fun a b => a.kind.toNat ≤ b.kind.toNat)

/-- Modelled from the spec: the filtering applied by the inventory builder
(`list_packages` in `pixi_api`, whose body is not among the sources under
study). The regex filter is a case-sensitive match applied to `name`,
modelled by an abstract predicate on names; the explicit-only filter keeps
the packages with `is_explicit = true`. -/
def filterPackages (pattern : Option (String → Bool)) (explicitOnly : Bool)
    (packages : List Package) : List Package :=
  (packages.filter fun p =>
    match pattern with
    | some keep => keep p.name
    | none => true).filter
    fun p => !explicitOnly || p.is_explicit

/-- An apostrophe, used to quote the environment and platform names in the
empty-inventory message. -/
def squote : String := String.singleton (Char.ofNat 39)

/-- The message of the `miette::bail!` of list.rs lines 114-118, with the
terminal styling of the interpolated environment and platform names elided. -/
def noPackagesMessage (environment platform : String) : String :=
  "No packages found in " ++ squote ++ environment ++ squote ++
    " environment for " ++ squote ++ platform ++ squote ++ " platform."

/-- Outcome of the listing command after the inventory is built: the
empty-inventory diagnostic, a table, or a JSON array (list.rs
lines 113-140). -/
inductive ListOutput where
  | noPackages (message : String)
  | table (packages : List Package)
  | json (packages : List Package)

/-- Embedding of `execute` after `list_packages` returned (list.rs
lines 99-140): sort by the chosen key, fail with the no-packages diagnostic
on an empty inventory, then choose JSON (when `--json` or `--json-pretty`)
or table output. -/
def executeList (environment platform : String) (jsonFlag jsonPretty : Bool)
    (sortBy : SortBy) (packages : List Package) : ListOutput :=
  let sorted := sortPackages sortBy packages
  if sorted.isEmpty then
    .noPackages (noPackagesMessage environment platform)
  else if jsonFlag || jsonPretty then .json sorted
  else .table sorted

/-- Outcome of writing the command output to standard output. -/
inductive WriteResult where
  | success
  | brokenPipe
  | otherError
deriving Repr, DecidableEq

/-- Exit code of the listing command given the chosen output and the outcome
of writing it. The no-packages diagnostic exits non-zero before any output is
written. Table output (list.rs lines 131-139) maps a broken pipe to
`std::process::exit(0)` and any other write error to a diagnostic failure
(exit 1). JSON output goes through `json_packages` (list.rs lines 205-214),
which prints with `println!`; the standard library panics on any write
failure there, broken pipe included, and a panic aborts the process with
exit code 101. -/
def finalExitCode (out : ListOutput) (write : WriteResult) : Nat :=
  match out with
  | .noPackages _ => 1
  | .table _ =>
    match write with
    | .success => 0
    | .brokenPipe => 0
    | .otherError => 1
  | .json _ =>
    match write with
    | .success => 0
    | .brokenPipe => 101
    | .otherError => 101

/-- Unfolding of the directory loop on a nonempty listing. The loop body
applied to one entry agrees with `get_dir_size` on that entry: for a statted
file both yield its metadata length, and everything else is handled by the
recursive call. -/
theorem get_dir_size_entries_cons (e : FsEntry) (rest : List FsEntry) :
    get_dir_size_entries (e :: rest) =
      (get_dir_size e).bind fun n =>
        (get_dir_size_entries rest).bind fun m => Except.ok (n + m) := by
  cases e <;> rfl

mutual

/-- Joint specification of `get_dir_size`: an I/O failure anywhere in the
tree yields an error, otherwise the result is the spec-side size. -/
theorem get_dir_size_characterization (e : FsEntry) :
    (get_dir_size e).toOption =
      if hasIOFailure e then none else some (specSize e) := by
  cases e with
  | file n => rfl
  | badFile => rfl
  | badDir => rfl
  | dir entries =>
    show (get_dir_size_entries entries).toOption =
      if hasIOFailureEntries entries then none
      else some (specSizeEntries entries)
    exact get_dir_size_entries_characterization entries

/-- Specification of the directory loop over a list of entries. -/
theorem get_dir_size_entries_characterization (es : List FsEntry) :
    (get_dir_size_entries es).toOption =
      if hasIOFailureEntries es then none
      else some (specSizeEntries es) := by
  cases es with
  | nil => rfl
  | cons e rest =>
    have h1 := get_dir_size_characterization e
    have h2 := get_dir_size_entries_characterization rest
    rw [get_dir_size_entries_cons]
    cases hge : get_dir_size e with
    | error m =>
      rw [hge] at h1
      simp only [Except.toOption] at h1
      have hfail : hasIOFailure e = true := by
        by_contra hc
        simp [hc] at h1
      simp [Except.bind, hasIOFailureEntries, specSizeEntries, hfail,
        Except.toOption]
    | ok n =>
      rw [hge] at h1
      simp only [Except.toOption] at h1
      have hok : hasIOFailure e = false := by
        by_contra hc
        simp only [Bool.not_eq_false] at hc
        simp [hc] at h1
      have hn : n = specSize e := by
        simp [hok] at h1
        exact h1
      cases hgr : get_dir_size_entries rest with
      | error m =>
        rw [hgr] at h2
        simp only [Except.toOption] at h2
        have hfail : hasIOFailureEntries rest = true := by
          by_contra hc
          simp [hc] at h2
        simp [Except.bind, hasIOFailureEntries, specSizeEntries, hok, hfail,
          Except.toOption]
      | ok m =>
        rw [hgr] at h2
        simp only [Except.toOption] at h2
        have hokr : hasIOFailureEntries rest = false := by
          by_contra hc
          simp only [Bool.not_eq_false] at hc
          simp [hc] at h2
        have hm : m = specSizeEntries rest := by
          simp [hokr] at h2
          exact h2
        simp [Except.bind, hasIOFailureEntries, specSizeEntries, hok, hokr,
          Except.toOption, hn, hm]

end

/-- Evaluation of the normalizer on a conda binary record: the recorded size
and the optional channel string. -/
theorem Package.new_conda_binary_eq (toUvVersion : String → Option String)
    (r : PackageRecord) (channel : Option String) (deps : List String)
    (idx : Option RegistryWheelIndex) :
    Package.new toUvVersion (.conda (.binary r channel)) deps idx =
      .ok { name := r.name, version := r.version, build := some r.build,
            size_bytes := r.size, kind := .conda, source := channel,
            is_explicit := deps.contains r.name, is_editable := false } := rfl

/-- Evaluation of the normalizer on a conda source record: the record's size
field is passed through unchanged and the source is the location string. -/
theorem Package.new_conda_source_eq (toUvVersion : String → Option String)
    (r : PackageRecord) (location : String) (deps : List String)
    (idx : Option RegistryWheelIndex) :
    Package.new toUvVersion (.conda (.source r location)) deps idx =
      .ok { name := r.name, version := r.version, build := some r.build,
            size_bytes := r.size, kind := .conda, source := some location,
            is_explicit := deps.contains r.name, is_editable := false } := rfl

/-- Evaluation of the normalizer on a pypi record without a content hash:
size and source come from the record's location. -/
theorem Package.new_pypi_no_hash_eq (toUvVersion : String → Option String)
    (p : PypiPackageData) (uvName : String) (deps : List String)
    (idx : Option RegistryWheelIndex) (h : p.hash.isSome = false) :
    Package.new toUvVersion (.pypi p uvName) deps idx =
      .ok { name := p.name, version := p.version, build := none,
            size_bytes := (get_pypi_location_information p.location).1,
            kind := .pypi,
            source := (get_pypi_location_information p.location).2,
            is_explicit := deps.contains p.name,
            is_editable := p.editable } := by
  simp only [Package.new, h]
  rfl

/-- Evaluation of the normalizer on a pypi record with a content hash but no
registry index: size and source come from the record's location. -/
theorem Package.new_pypi_no_registry_eq (toUvVersion : String → Option String)
    (p : PypiPackageData) (uvName : String) (deps : List String)
    (h : p.hash.isSome = true) :
    Package.new toUvVersion (.pypi p uvName) deps none =
      .ok { name := p.name, version := p.version, build := none,
            size_bytes := (get_pypi_location_information p.location).1,
            kind := .pypi,
            source := (get_pypi_location_information p.location).2,
            is_explicit := deps.contains p.name,
            is_editable := p.editable } := by
  simp only [Package.new, h]
  rfl

/-- Evaluation of the normalizer on a pypi record with a content hash and a
registry index: the result is determined by the registry `find`, and a
conversion abort there propagates. -/
theorem Package.new_pypi_registry_eq (toUvVersion : String → Option String)
    (p : PypiPackageData) (uvName : String) (deps : List String)
    (idx : RegistryWheelIndex) (h : p.hash.isSome = true) :
    Package.new toUvVersion (.pypi p uvName) deps (some idx) =
      (findMatchingEntry toUvVersion (idx.get uvName) p.version).map
        fun entry =>
          { name := p.name, version := p.version, build := none,
            size_bytes := entry.bind fun e => (get_dir_size e.path).toOption,
            kind := .pypi,
            source := entry.map fun e => e.filename,
            is_explicit := deps.contains p.name,
            is_editable := p.editable } := by
  cases hf : findMatchingEntry toUvVersion (idx.get uvName) p.version with
  | error m =>
    simp only [Package.new, h, hf, Except.map]
    rfl
  | ok o =>
    simp only [Package.new, h, hf, Except.map]
    rfl

/-- The registry `find` aborts exactly when the iterator is nonempty (so the
predicate is evaluated at least once) and the version conversion fails. -/
theorem findMatchingEntry_error_iff (toUvVersion : String → Option String)
    (entries : List IndexEntry) (version : String) :
    (∃ m, findMatchingEntry toUvVersion entries version = .error m) ↔
      (entries ≠ [] ∧ toUvVersion version = none) := by
  induction entries with
  | nil => simp [findMatchingEntry]
  | cons e rest ih =>
    cases hv : toUvVersion version with
    | none => simp [findMatchingEntry, hv]
    | some uv =>
      by_cases hev : e.version = uv
      · simp [findMatchingEntry, hv, hev]
      · simp only [findMatchingEntry, hv, hev, if_false] at ih ⊢
        simp [ih, hv]

/-- When no entry for the name carries the converted version, the registry
`find` yields no entry, or aborts when the conversion itself fails on a
nonempty iterator. -/
theorem findMatchingEntry_no_match (toUvVersion : String → Option String)
    (entries : List IndexEntry) (version : String)
    (h : ∀ e ∈ entries, toUvVersion version ≠ some e.version) :
    findMatchingEntry toUvVersion entries version = .ok none ∨
      findMatchingEntry toUvVersion entries version =
        .error "invalid version" := by
  induction entries with
  | nil => left; rfl
  | cons e rest ih =>
    cases hv : toUvVersion version with
    | none => right; simp [findMatchingEntry, hv]
    | some uv =>
      have hne : e.version ≠ uv := by
        intro he
        exact h e (List.mem_cons_self e rest) (by rw [hv, he])
      have := ih fun x hx => h x (List.mem_cons_of_mem e hx)
      simpa [findMatchingEntry, hv, hne] using this

/-- C5: `get_dir_size` returns the metadata length when the path is a file
(`specSize` of a file is its metadata length) and, for a directory, the sum
over every directory entry of the entry size — metadata length for files,
recursive result for subtrees (`specSize`); it returns an I/O error exactly
when some entry cannot be statted or some directory cannot be read as a
listing (`hasIOFailure`). -/
theorem get_dir_size_correct (e : FsEntry) :
    (get_dir_size e).toOption =
      if hasIOFailure e then none else some (specSize e) :=
  get_dir_size_characterization e

/-- C2 counterexample: a conda source record whose package record carries a
recorded size yields a `Package` with `size_bytes = some 5`, not an absent
size — the normalizer passes the record's `size` field through for source
records exactly as for binary ones. -/
theorem conda_source_recorded_size_counterexample :
    (Package.new (fun v => some v)
        (.conda (.source { name := "pkg", version := "1.0", build := "0",
                           size := some 5 } "https://example/src")) []
        none).toOption.map Package.size_bytes = some (some 5) := rfl

/-- C2 (amended): for every conda source record, the produced `Package` has
`size_bytes` equal to the record's recorded size field (absent whenever the
lock data records none) and `source` equal to the source location string. -/
theorem conda_source_size_and_source (toUvVersion : String → Option String)
    (r : PackageRecord) (location : String) (deps : List String)
    (idx : Option RegistryWheelIndex) :
    ∃ pkg, Package.new toUvVersion (.conda (.source r location)) deps idx =
        .ok pkg ∧
      pkg.size_bytes = r.size ∧ pkg.source = some location :=
  ⟨_, Package.new_conda_source_eq toUvVersion r location deps idx, rfl, rfl⟩

/-- C1: for a pypi record with a content hash, normalized with a registry
index available, if no cached entry under the record's name carries the
record's version (converted to the native uv form), then the produced
`Package` has no size and no source: the normalizer does not fall back to
the record's location in this branch. -/
theorem pypi_hash_registry_no_match_no_size_no_source
    (toUvVersion : String → Option String) (p : PypiPackageData)
    (uvName : String) (deps : List String) (idx : RegistryWheelIndex)
    (pkg : Package) (hhash : p.hash.isSome = true)
    (hnomatch : ∀ e ∈ idx.get uvName, toUvVersion p.version ≠ some e.version)
    (hok : Package.new toUvVersion (.pypi p uvName) deps (some idx) =
      .ok pkg) :
    pkg.size_bytes = none ∧ pkg.source = none := by
  rw [Package.new_pypi_registry_eq toUvVersion p uvName deps idx hhash]
    at hok
  rcases findMatchingEntry_no_match toUvVersion (idx.get uvName) p.version
      hnomatch with hf | hf <;> rw [hf] at hok
  · simp only [Except.map, Except.ok.injEq] at hok
    rw [← hok]
    exact ⟨rfl, rfl⟩
  · simp [Except.map] at hok

/-- A registry index whose only cached entry for `requests` has a version
different from the one in the lock record. -/
def sampleIdx : RegistryWheelIndex :=
  ⟨[("requests", { version := "9.9.9", path := .file 7,
                   filename := "requests-9.9.9.whl" })]⟩

/-- A pypi lock record with a content hash, as produced by an index
install. -/
def sampleHashedPypi : PypiPackageData :=
  { name := "requests", version := "2.31.0", hash := some "sha256-abc",
    editable := false, location := .url "https://example/requests.whl" }

/-- Witness for C1 at a concrete record and index. -/
theorem pypi_hash_registry_no_match_witness :
    ∃ pkg, Package.new (fun v => some v) (.pypi sampleHashedPypi "requests")
        [] (some sampleIdx) = .ok pkg ∧
      pkg.size_bytes = none ∧ pkg.source = none := by
  refine ⟨_, rfl, ?_⟩
  exact pypi_hash_registry_no_match_no_size_no_source (fun v => some v)
    sampleHashedPypi "requests" [] sampleIdx _ rfl (by decide) rfl

/-- C3: the normalizer is total — it produces a `Package` for every input,
degrading lookup failures to a missing size/source — and its one failure
mode is the version-conversion abort in the hash-with-registry branch: it
errors exactly when the record is a pypi record with a content hash, a
registry index is available, the index holds at least one entry under the
record's name (so the conversion is actually attempted), and converting the
record's version into the native uv form fails. -/
theorem normalize_total_except_version_conversion
    (toUvVersion : String → Option String) (package : PackageExt)
    (deps : List String) (registry_index : Option RegistryWheelIndex) :
    (∃ m, Package.new toUvVersion package deps registry_index =
      .error m) ↔
      ∃ p uvName idx, package = .pypi p uvName ∧
        registry_index = some idx ∧ p.hash.isSome = true ∧
        idx.get uvName ≠ [] ∧ toUvVersion p.version = none := by
  cases package with
  | conda c =>
    cases c with
    | binary r channel => simp [Package.new_conda_binary_eq]
    | source r location => simp [Package.new_conda_source_eq]
  | pypi p uvName =>
    cases hh : p.hash.isSome with
    | false =>
      simp [Package.new_pypi_no_hash_eq toUvVersion p uvName deps
        registry_index hh, hh]
    | true =>
      cases registry_index with
      | none => simp [Package.new_pypi_no_registry_eq toUvVersion p uvName
          deps hh]
      | some idx =>
        rw [Package.new_pypi_registry_eq toUvVersion p uvName deps idx hh]
        have hmap : (∃ m, (findMatchingEntry toUvVersion (idx.get uvName)
            p.version).map (fun entry =>
              { name := p.name, version := p.version, build := none,
                size_bytes :=
                  entry.bind fun e => (get_dir_size e.path).toOption,
                kind := .pypi,
                source := entry.map fun e => e.filename,
                is_explicit := deps.contains p.name,
                is_editable := p.editable : Package }) = .error m) ↔
            (∃ m, findMatchingEntry toUvVersion (idx.get uvName) p.version =
              .error m) := by
          cases hf : findMatchingEntry toUvVersion (idx.get uvName)
              p.version with
          | error m => simp [Except.map]
          | ok o => simp [Except.map]
        rw [hmap, findMatchingEntry_error_iff]
        simp [hh]
        constructor
        · rintro ⟨hne, hv⟩
          exact ⟨p, uvName, ⟨rfl, rfl⟩, hh, hne, hv⟩
        · rintro ⟨p1, u1, ⟨h1, h2⟩, _, hne, hv⟩
          subst h1
          subst h2
          exact ⟨hne, hv⟩

/-- C6: every `Package` the normalizer produces has `build` absent exactly
when its kind is `Pypi` (so present for every conda package), and
`is_editable = false` whenever its kind is `Conda`. -/
theorem build_none_iff_pypi_and_conda_not_editable
    (toUvVersion : String → Option String) (package : PackageExt)
    (deps : List String) (registry_index : Option RegistryWheelIndex)
    (pkg : Package)
    (hok : Package.new toUvVersion package deps registry_index = .ok pkg) :
    (pkg.build = none ↔ pkg.kind = .pypi) ∧
      (pkg.kind = .conda → pkg.is_editable = false) := by
  cases package with
  | conda c =>
    cases c with
    | binary r channel =>
      rw [Package.new_conda_binary_eq] at hok
      simp only [Except.ok.injEq] at hok
      rw [← hok]
      simp
    | source r location =>
      rw [Package.new_conda_source_eq] at hok
      simp only [Except.ok.injEq] at hok
      rw [← hok]
      simp
  | pypi p uvName =>
    cases hh : p.hash.isSome with
    | false =>
      rw [Package.new_pypi_no_hash_eq toUvVersion p uvName deps
        registry_index hh] at hok
      simp only [Except.ok.injEq] at hok
      rw [← hok]
      simp
    | true =>
      cases registry_index with
      | none =>
        rw [Package.new_pypi_no_registry_eq toUvVersion p uvName deps hh]
          at hok
        simp only [Except.ok.injEq] at hok
        rw [← hok]
        simp
      | some idx =>
        rw [Package.new_pypi_registry_eq toUvVersion p uvName deps idx hh]
          at hok
        cases hf : findMatchingEntry toUvVersion (idx.get uvName)
            p.version with
        | error m => rw [hf] at hok; simp [Except.map] at hok
        | ok o =>
          rw [hf] at hok
          simp only [Except.map, Except.ok.injEq] at hok
          rw [← hok]
          simp

/-- A conda binary lock record with a known size and channel. -/
def sampleCondaRecord : PackageRecord :=
  { name := "numpy", version := "1.26.0", build := "py311h_0",
    size := some 5000000 }

/-- Witness for C6 at a concrete conda binary record. -/
theorem build_none_iff_pypi_witness :
    ∃ pkg, Package.new (fun v => some v)
        (.conda (.binary sampleCondaRecord (some "conda-forge")))
        ["numpy"] none = .ok pkg ∧
      ((pkg.build = none ↔ pkg.kind = .pypi) ∧
        (pkg.kind = .conda → pkg.is_editable = false)) := by
  have hok : Package.new (fun v => some v)
      (.conda (.binary sampleCondaRecord (some "conda-forge")))
      ["numpy"] none =
      .ok { name := "numpy", version := "1.26.0",
            build := some "py311h_0", size_bytes := some 5000000,
            kind := .conda, source := some "conda-forge",
            is_explicit := true, is_editable := false } := rfl
  exact ⟨_, hok,
    build_none_iff_pypi_and_conda_not_editable (fun v => some v) _
      ["numpy"] none _ hok⟩

/-- C4 counterexample: a pypi record whose local path cannot be listed. The
size traversal fails with an I/O error, yet the normalizer still returns a
`Package`, with `size_bytes` absent — the failure is absorbed by `.ok()`
(package.rs lines 63 and 99), not propagated as a diagnostic failure. -/
theorem io_failure_not_propagated_counterexample :
    get_dir_size FsEntry.badDir = .error "failed to read directory" ∧
    Package.new (fun v => some v)
        (.pypi { name := "localpkg", version := "1.0", hash := none,
                 editable := false,
                 location := .path "/tmp/localpkg" .badDir } "localpkg")
        [] none =
      .ok { name := "localpkg", version := "1.0", build := none,
            size_bytes := none, kind := .pypi,
            source := some "/tmp/localpkg", is_explicit := false,
            is_editable := false } := ⟨rfl, rfl⟩

/-- C4 (amended): an I/O failure during the size traversal is absorbed by the
normalizer rather than aborting the inventory build: in the location
fallback branch the `Package` is produced with `size_bytes` absent and the
path string as source, and in the registry branch a matched entry whose
on-disk artifact cannot be traversed yields `size_bytes` absent and the
distribution filename as source. -/
theorem io_failure_absorbed_as_missing_size
    (toUvVersion : String → Option String) (p q : PypiPackageData)
    (uvName : String) (deps : List String) (s : String) (fs : FsEntry)
    (idx : RegistryWheelIndex) (e : IndexEntry)
    (hploc : p.location = .path s fs) (hpfs : hasIOFailure fs = true)
    (hph : p.hash.isSome = false) (hqh : q.hash.isSome = true)
    (hfind : findMatchingEntry toUvVersion (idx.get uvName) q.version =
      .ok (some e))
    (hepath : hasIOFailure e.path = true) :
    (Package.new toUvVersion (.pypi p uvName) deps none =
      .ok { name := p.name, version := p.version, build := none,
            size_bytes := none, kind := .pypi, source := some s,
            is_explicit := deps.contains p.name,
            is_editable := p.editable }) ∧
    (Package.new toUvVersion (.pypi q uvName) deps (some idx) =
      .ok { name := q.name, version := q.version, build := none,
            size_bytes := none, kind := .pypi, source := some e.filename,
            is_explicit := deps.contains q.name,
            is_editable := q.editable }) := by
  have hfs : (get_dir_size fs).toOption = none := by
    rw [get_dir_size_characterization fs, hpfs]
    rfl
  have hes : (get_dir_size e.path).toOption = none := by
    rw [get_dir_size_characterization e.path, hepath]
    rfl
  constructor
  · rw [Package.new_pypi_no_hash_eq toUvVersion p uvName deps none hph]
    rw [hploc]
    simp [get_pypi_location_information, hfs]
  · rw [Package.new_pypi_registry_eq toUvVersion q uvName deps idx hqh,
      hfind]
    simp [Except.map, hes]

/-- A pypi lock record that points at a local path whose directory cannot
be listed. -/
def sampleLocalPypi : PypiPackageData :=
  { name := "localpkg", version := "1.0", hash := none, editable := false,
    location := .path "/tmp/localpkg" .badDir }

/-- A hashed pypi lock record whose cached artifact cannot be traversed. -/
def sampleBadArtifactPypi : PypiPackageData :=
  { name := "requests", version := "9.9.9", hash := some "sha256-abc",
    editable := false, location := .url "https://example/requests.whl" }

/-- A registry index entry whose on-disk artifact cannot be listed. -/
def badArtifactEntry : IndexEntry :=
  { version := "9.9.9", path := .badDir,
    filename := "requests-9.9.9.whl" }

/-- A registry index whose cached entry for `requests` has an artifact that
cannot be traversed. -/
def badArtifactIdx : RegistryWheelIndex :=
  ⟨[("requests", badArtifactEntry)]⟩

/-- Witness for C4 at a concrete fallback record, registry record and
index. -/
theorem io_failure_absorbed_witness :
    hasIOFailure FsEntry.badDir = true ∧
    Package.new (fun v => some v) (.pypi sampleLocalPypi "requests")
        [] none =
      .ok { name := "localpkg", version := "1.0", build := none,
            size_bytes := none, kind := .pypi,
            source := some "/tmp/localpkg", is_explicit := false,
            is_editable := false } ∧
    Package.new (fun v => some v)
        (.pypi sampleBadArtifactPypi "requests") [] (some badArtifactIdx) =
      .ok { name := "requests", version := "9.9.9", build := none,
            size_bytes := none, kind := .pypi,
            source := some "requests-9.9.9.whl", is_explicit := false,
            is_editable := false } := by
  have h := io_failure_absorbed_as_missing_size (fun v => some v)
    sampleLocalPypi sampleBadArtifactPypi "requests" [] "/tmp/localpkg"
    .badDir badArtifactIdx badArtifactEntry rfl rfl rfl rfl rfl rfl
  exact ⟨rfl, h.1, h.2⟩

/-- C7: sorting with key Size yields a permutation of the input whose
sequence of effective sizes — `size_bytes` with absent treated as zero
(`sizeKey`) — is non-decreasing. -/
theorem sort_by_size_perm_and_nondecreasing (packages : List Package) :
    (sortPackages .size packages).Perm packages ∧
    (sortPackages .size packages).Pairwise
      fun a b => sizeKey a ≤ sizeKey b := by
  constructor
  · exact List.mergeSort_perm packages _
  · have h := @List.sorted_mergeSort Package
      (fun a b : Package => decide (sizeKey a ≤ sizeKey b))
      (fun a b c hab hbc => by
        simp only [decide_eq_true_eq] at hab hbc ⊢
        omega)
      (fun a b => by
        rcases Nat.le_total (sizeKey a) (sizeKey b) with h | h <;> simp [h])
      packages
    exact h.imp fun hab => by simpa using hab

/-- Equality of the sort keys used by `Vec::sort_by` under each strategy:
equal effective sizes, equal names, or equal kind discriminants. -/
def sortKeyEq : SortBy → Package → Package → Bool
  | .size, a, b => sizeKey a == sizeKey b
  | .name, a, b => a.name == b.name
  | .kind, a, b => a.kind == b.kind

/-- C10: sorting is stable for every sort key: two packages whose keys
compare equal keep, in the sorted output, the relative order they had in the
input (stated through sublists of length two, which capture relative order
in a list). `Vec::sort_by` is documented as stable and is modelled by the
stable `List.mergeSort`. -/
theorem sort_stable_for_equal_keys (sortBy : SortBy)
    (packages : List Package) (a b : Package)
    (hkey : sortKeyEq sortBy a b = true)
    (hsub : [a, b].Sublist packages) :
    [a, b].Sublist (sortPackages sortBy packages) := by
  cases sortBy with
  | size =>
    simp only [sortKeyEq, beq_iff_eq] at hkey
    refine List.sublist_mergeSort
      (fun x y z hxy hyz => by
        simp only [decide_eq_true_eq] at hxy hyz ⊢
        omega)
      (fun x y => by
        rcases Nat.le_total (sizeKey x) (sizeKey y) with h | h <;> simp [h])
      ?_ hsub
    simp [List.pairwise_cons, hkey, Nat.le_refl]
  | name =>
    simp only [sortKeyEq, beq_iff_eq] at hkey
    refine List.sublist_mergeSort
      (fun x y z hxy hyz => by
        simp only [decide_eq_true_eq] at hxy hyz ⊢
        exact le_trans hxy hyz)
      (fun x y => by
        rcases le_total x.name y.name with h | h <;> simp [h])
      ?_ hsub
    simp [List.pairwise_cons, hkey]
  | kind =>
    simp only [sortKeyEq, beq_iff_eq] at hkey
    refine List.sublist_mergeSort
      (fun x y z hxy hyz => by
        simp only [decide_eq_true_eq] at hxy hyz ⊢
        omega)
      (fun x y => by
        rcases Nat.le_total x.kind.toNat y.kind.toNat with h | h <;>
          simp [h])
      ?_ hsub
    simp [List.pairwise_cons, hkey, Nat.le_refl]

/-- A second package with the same effective size as `samplePackageA` but a
different name, to exercise stability. -/
def samplePackageA : Package :=
  { name := "alpha", version := "1", build := none,
    size_bytes := some 120000, kind := .pypi, source := none,
    is_explicit := false, is_editable := false }

/-- See `samplePackageA`. -/
def samplePackageB : Package :=
  { name := "beta", version := "2", build := none,
    size_bytes := some 120000, kind := .pypi, source := none,
    is_explicit := false, is_editable := false }

/-- Witness for C10 at two concrete equal-size packages. -/
theorem sort_stable_witness :
    sortKeyEq .size samplePackageA samplePackageB = true ∧
    [samplePackageA, samplePackageB].Sublist
      (sortPackages .size [samplePackageA, samplePackageB]) := by
  refine ⟨by decide, ?_⟩
  exact sort_stable_for_equal_keys .size
    [samplePackageA, samplePackageB] samplePackageA samplePackageB
    (by decide) (List.Sublist.refl _)

/-- Sorting the empty inventory yields the empty inventory, under every
strategy. -/
theorem sortPackages_nil (sortBy : SortBy) : sortPackages sortBy [] = [] := by
  cases sortBy <;> simp [sortPackages]

/-- C8: when the regex and explicit-only filters leave zero packages, the
listing command terminates with the no-packages diagnostic: the output is
the `noPackages` condition (no table, no JSON), its exit code is non-zero
for every write outcome, and its message names the environment and the
platform. -/
theorem empty_filter_no_packages_failure
    (environment platform : String) (jsonFlag jsonPretty : Bool)
    (sortBy : SortBy) (pattern : Option (String → Bool))
    (explicitOnly : Bool) (packages : List Package)
    (hempty : filterPackages pattern explicitOnly packages = []) :
    executeList environment platform jsonFlag jsonPretty sortBy
        (filterPackages pattern explicitOnly packages) =
      .noPackages (noPackagesMessage environment platform) ∧
    (∀ write, finalExitCode
      (executeList environment platform jsonFlag jsonPretty sortBy
        (filterPackages pattern explicitOnly packages)) write ≠ 0) ∧
    noPackagesMessage environment platform =
      ("No packages found in " ++ squote) ++ environment ++
        (squote ++ " environment for " ++ squote) ++ platform ++
        (squote ++ " platform.") := by
  rw [hempty]
  refine ⟨?_, ?_, ?_⟩
  · simp [executeList, sortPackages_nil]
  · intro write
    simp [executeList, sortPackages_nil, finalExitCode]
  · simp [noPackagesMessage, String.append_assoc]

/-- Witness for C8: one package, a pattern that matches nothing. -/
theorem empty_filter_no_packages_witness :
    filterPackages (some fun _ => false) false [samplePackageA] = [] ∧
    executeList "default" "linux-64" false false .name
        (filterPackages (some fun _ => false) false [samplePackageA]) =
      .noPackages (noPackagesMessage "default" "linux-64") := by
  refine ⟨rfl, ?_⟩
  exact (empty_filter_no_packages_failure "default" "linux-64" false false
    .name (some fun _ => false) false [samplePackageA] rfl).1

/-- C9 counterexample: with `--json`, a broken pipe while printing is not
intercepted — `json_packages` prints with `println!`, which panics on a
write failure — so the process does not exit with code 0. -/
theorem json_broken_pipe_nonzero_exit_counterexample :
    finalExitCode (executeList "default" "linux-64" true false .name
      [samplePackageA]) .brokenPipe ≠ 0 := by
  have hexec : executeList "default" "linux-64" true false .name
      [samplePackageA] = .json [samplePackageA] := by
    simp [executeList, sortPackages, List.mergeSort_singleton]
  rw [hexec]
  simp [finalExitCode]

/-- C9 (amended): while emitting the table, a broken pipe ends the process
with exit code 0 and any other write failure is a diagnostic failure with a
non-zero exit; while emitting JSON, any write failure — broken pipe
included — aborts the process with a non-zero exit. -/
theorem output_write_failure_exit_codes (packages : List Package) :
    finalExitCode (.table packages) .success = 0 ∧
    finalExitCode (.table packages) .brokenPipe = 0 ∧
    finalExitCode (.table packages) .otherError ≠ 0 ∧
    finalExitCode (.json packages) .success = 0 ∧
    finalExitCode (.json packages) .brokenPipe ≠ 0 ∧
    finalExitCode (.json packages) .otherError ≠ 0 := by
  simp [finalExitCode]
